import Mathlib

/-!
Shallow embedding of `src/game.py` ("Infinite Cat Jumper"), restricted to the
simulation core that the verified claims are about: the `Player` physics and
collision logic (`Player.update`, `Player.hit`, `Player.jump`,
`Player.collect`), the end-of-frame session transition of `main`
(fall / death / goal checks), and the leaderboard persistence functions
(`save_score`, `check_top10`).

Modelling conventions:
* Python floats are modelled as exact rationals (`ℚ`); Python ints as `Int`
  (the jump counter, which only ever holds 0, 1 or 2, as `Nat`).
* Python strings are modelled as `String`, but every string operation used by
  the leaderboard code (strip, whitespace split, endswith, `int()` / `float()`
  parsing, `"%.2f"` formatting) is implemented over the character list
  `String.data`, mirroring Python's semantics on the forms that occur in
  scoreboard files (optional sign, decimal digits, optional decimal point;
  exponent / inf / nan forms of Python's `float()` are outside the modelled
  fragment and are not exercised by any claim).
* File I/O is modelled by passing the file content as `Option (List String)`
  (`none` = the file is missing / `open` raises); a Python exception inside
  the parsing loop is modelled with `Except Unit`.
-/

/-- Screen width constant `WIDTH = 800` of `game.py`. -/
def WIDTH : ℚ := 800

/-- Screen height constant `HEIGHT = 600` of `game.py`. -/
def HEIGHT : ℚ := 600

/-- Gravity constant `GRAV = 0.5`. -/
def GRAV : ℚ := 1/2

/-- Reduced gravity `EASYGRAV = 0.2` used before the first jump/landing. -/
def EASYGRAV : ℚ := 1/5

/-- First-jump impulse magnitude `JUMP = 15`. -/
def JUMP : ℚ := 15

/-- Double-jump impulse magnitude `DJUMP = 12`. -/
def DJUMP : ℚ := 12

/-- Level score goals `level_goals = [10, 15, 25]`. -/
def level_goals : List Int := [10, 15, 25]

/-- Lookup `level_goals[lvl-1]`, the score goal of level `lvl ∈ {1,2,3}`. -/
def levelGoal (lvl : Nat) : Int := level_goals.getD (lvl - 1) 0

/-- The fields of `game.py`'s `Platform` that the player physics reads:
rectangle and hazard flag.  (The per-level motion fields `slide`, `vx`, `vy`,
`radius`, `angle`, `rot_speed`, `cx`, `cy` are written only by the level
update code in `main`, which no claim quantifies over, so platforms enter the
claims as the rectangles `Player.update` sees on a given frame.) -/
structure Platform where
  x : ℚ
  y : ℚ
  w : ℚ
  h : ℚ
  hazard : Bool
  deriving DecidableEq

/-- The state of `game.py`'s `Player` object. -/
structure Player where
  x : ℚ
  y : ℚ
  w : ℚ
  h : ℚ
  vy : ℚ
  jumps : Nat
  score : Int
  lives : Int
  initial : Bool
  alive : Bool
  double_end : Int
  invul : Int
  hit_recently : Bool
  start_x : ℚ
  start_y : ℚ
  deriving DecidableEq

/-- Constructor `Player.__init__(x, y)`: fresh player at `(x, y)`. -/
def Player.init (x y : ℚ) : Player :=
  { x := x, y := y, w := 50, h := 50, vy := 0, jumps := 0, score := 0,
    lives := 3, initial := true, alive := true, double_end := 0, invul := 0,
    hit_recently := false, start_x := x, start_y := y }

/-- Method `Player.hit`: decrement lives; on death only flip `alive`; otherwise grant
30 frames of invulnerability, teleport back to the start position, zero the
vertical velocity and jump counter, and set the `hit_recently` latch. -/
def Player.hit (s : Player) : Player :=
  if s.lives - 1 ≤ 0 then
    { s with lives := s.lives - 1, alive := false }
  else
    { s with lives := s.lives - 1, invul := 30, x := s.start_x, y := s.start_y,
             vy := 0, jumps := 0, hit_recently := true }

/-- The gravity selection of `Player.update`:
`g = EASYGRAV if (initial and jumps == 0) else GRAV`. -/
def gravAccel (s : Player) : ℚ :=
  if s.initial ∧ s.jumps = 0 then EASYGRAV else GRAV

/-- The velocity update of `Player.update`: while rising (`vy < 0`) the
gravity increment is damped to `g * 0.6`; while falling the full `g`
applies. -/
def newVy (s : Player) : ℚ :=
  if s.vy < 0 then s.vy + gravAccel s * (3/5) else s.vy + gravAccel s

/-- The gravity/velocity/position integration at the top of `Player.update`:
`vy` accumulates gravity, then `y += vy` with the updated velocity. -/
def integrate (s : Player) : Player :=
  { s with vy := newVy s, y := s.y + newVy s }

/-- The invulnerability decrement of `Player.update`:
`if invul > 0: invul -= 1`. -/
def tickInvul (s : Player) : Player :=
  if s.invul > 0 then { s with invul := s.invul - 1 } else s

/-- The per-platform hazard test of `Player.update`: axis-aligned bounding-box
overlap and the platform's hazard flag. -/
def hazardOverlap (s : Player) (p : Platform) : Bool :=
  decide (s.x + s.w > p.x) && decide (s.x < p.x + p.w) &&
  decide (s.y + s.h > p.y) && decide (s.y < p.y + p.h) && p.hazard

/-- The hazard-collision block of `Player.update`: the overlap scan runs only
when `invul == 0` (after the decrement); a detected collision calls `hit`
unless the `hit_recently` latch is set; a frame without a detected collision
clears the latch. -/
def hazardPhase (s : Player) (plats : List Platform) : Player :=
  if decide (s.invul = 0) && plats.any (fun p => hazardOverlap s p) then
    (if s.hit_recently then s else s.hit)
  else
    { s with hit_recently := false }

/-- The landing test of `Player.update` for one platform: non-hazard, the
player's bottom edge inside the platform's vertical span, horizontal
overlap. -/
def landCond (s : Player) (p : Platform) : Bool :=
  !p.hazard && decide (s.y + s.h ≥ p.y) && decide (s.y + s.h ≤ p.y + p.h) &&
  decide (s.x + s.w > p.x) && decide (s.x < p.x + p.w)

/-- The landing block of `Player.update`: only while `alive` and `vy >= 0`,
snap onto the first platform of the list satisfying `landCond` (the Python
loop breaks at the first match), zeroing `vy`, resetting `jumps` and clearing
`initial`. -/
def landPhase (s : Player) (plats : List Platform) : Player :=
  if s.alive ∧ 0 ≤ s.vy then
    match plats.find? (landCond s) with
    | some p => { s with y := p.y - s.h, vy := 0, jumps := 0, initial := false }
    | none => s
  else s

/-- First clamping statement of `Player.update`: `if x < 0: x = 0`. -/
def clampLow (s : Player) : Player :=
  if s.x < 0 then { s with x := 0 } else s

/-- Second clamping statement: `if x + w > WIDTH: x = WIDTH - w`. -/
def clampHigh (s : Player) : Player :=
  if s.x + s.w > WIDTH then { s with x := WIDTH - s.w } else s

/-- The horizontal clamping at the end of `Player.update`: the two `if`
statements in sequence force `x` into `[0, WIDTH - w]`. -/
def clampX (s : Player) : Player := clampHigh (clampLow s)

/-- Method `Player.update(plats)`: integration, invulnerability decrement, hazard
collision, landing, horizontal clamp — in the source's order. -/
def Player.update (s : Player) (plats : List Platform) : Player :=
  clampX (landPhase (hazardPhase (tickInvul (integrate s)) plats) plats)

/-- Method `Player.jump`: two-stage jump machine keyed on the `jumps` counter. -/
def Player.jump (s : Player) : Player :=
  if s.jumps = 0 then
    { s with vy := -JUMP, jumps := 1, initial := false }
  else if s.jumps = 1 then
    { s with vy := -DJUMP, jumps := 2 }
  else s

/-- Class `Item` of `game.py`: either bound to a platform (position = platform
position + stored offset `ox, oy`, recomputed by `get_x`/`get_y`) or
free-standing with an absolute position.  The Python object stores only the
fields of its own variant; here both field pairs exist and `plat` selects
which pair `get_x`/`get_y` read, exactly as the source methods do. -/
structure Item where
  plat : Option Platform
  ox : ℚ
  oy : ℚ
  x : ℚ
  y : ℚ
  w : ℚ
  h : ℚ
  special : Bool
  deriving DecidableEq

/-- Method `Item.get_x`: platform-bound items resolve to `plat.x + ox`. -/
def Item.get_x (it : Item) : ℚ :=
  match it.plat with
  | some p => p.x + it.ox
  | none => it.x

/-- Method `Item.get_y`: platform-bound items resolve to `plat.y + oy`. -/
def Item.get_y (it : Item) : ℚ :=
  match it.plat with
  | some p => p.y + it.oy
  | none => it.y

/-- The player/item bounding-box overlap test of `Player.collect`. -/
def itemOverlap (s : Player) (it : Item) : Bool :=
  decide (s.x < it.get_x + it.w) && decide (s.x + s.w > it.get_x) &&
  decide (s.y < it.get_y + it.h) && decide (s.y + s.h > it.get_y)

/-- First statement of `Player.collect`'s per-item body: a special item
(re)sets `double_end := now + 5000`, unconditionally replacing any previous
expiry. -/
def applySpecial (now : Int) (s : Player) (it : Item) : Player :=
  if it.special then { s with double_end := now + 5000 } else s

/-- Second statement: the score is incremented by 2 if `now < double_end`
(read after the special-item update) and by 1 otherwise. -/
def applyScore (now : Int) (s : Player) : Player :=
  if now < s.double_end then { s with score := s.score + 2 }
  else { s with score := s.score + 1 }

/-- The body of `Player.collect` for one overlapping item. -/
def collectOne (now : Int) (s : Player) (it : Item) : Player :=
  applyScore now (applySpecial now s it)

/-- Method `Player.collect(items)` at current tick `now`: scan the item list in
order, consuming every overlapping item (the Python loop iterates over a copy
and removes collected items from the live list); returns the updated player
and the surviving items.  The player's position, which the overlap test
reads, is not modified by collection. -/
def Player.collect (now : Int) (s : Player) : List Item → Player × List Item
  | [] => (s, [])
  | it :: rest =>
    if itemOverlap s it then
      Player.collect now (collectOne now s it) rest
    else
      let r := Player.collect now s rest
      (r.1, it :: r.2)

/-- The session outcome decided by the end-of-frame checks of `main`
(lines 641–674): keep playing, game over (recording the attained score and
the clamped shortfall `max (goal - score) 0`), or level completion. -/
inductive Outcome where
  | keepPlaying : Outcome
  | gameOver : Int → Int → Outcome
  | levelComplete : Outcome
  deriving DecidableEq

/-- The game-over outcome of `main`: record `level_scores[lvl-1] = score` and
compute `left = max(goal - score, 0)`. -/
def gameOverData (s : Player) (lvl : Nat) : Outcome :=
  Outcome.gameOver s.score (max (levelGoal lvl - s.score) 0)

/-- The `if not player.alive` and `if player.score >= level_goals[lvl-1]`
checks of `main` that follow the fall check. -/
def deathAndGoalCheck (s : Player) (lvl : Nat) : Player × Outcome :=
  if s.alive = false then (s, gameOverData s lvl)
  else if s.score ≥ levelGoal lvl then (s, Outcome.levelComplete)
  else (s, Outcome.keepPlaying)

/-- The end-of-frame session transition of `main` applied to the
post-`update`/`collect` player: `if player.y > HEIGHT` then a remaining life
is consumed by `player.hit()` (falling through to the death/goal checks),
else with no lives left the session goes to game over directly; without a
fall only the death/goal checks run. -/
def frameEnd (s : Player) (lvl : Nat) : Player × Outcome :=
  if s.y > HEIGHT then
    if s.lives > 0 then deathAndGoalCheck s.hit lvl
    else (s, gameOverData s lvl)
  else deathAndGoalCheck s lvl

/-- Whitespace tokenizer: `line.strip().split()` of Python — split on runs of
whitespace, discarding empty tokens (which also subsumes the strip). -/
def splitWsGo : List Char → List Char → List String
  | [], acc => if acc.isEmpty then [] else [String.mk acc.reverse]
  | c :: cs, acc =>
    if c.isWhitespace then
      (if acc.isEmpty then splitWsGo cs [] else String.mk acc.reverse :: splitWsGo cs [])
    else splitWsGo cs (c :: acc)

/-- Python's `line.strip().split()`. -/
def pySplit (s : String) : List String := splitWsGo s.data []

/-- Python's `tok.endswith('.')`. -/
def endsWithDot (s : String) : Bool :=
  match s.data.getLast? with
  | some c => decide (c = '.')
  | none => false

/-- Decimal digit accumulator: fails on the first non-digit character. -/
def digitsVal : List Char → Nat → Option Nat
  | [], acc => some acc
  | c :: cs, acc =>
    if c.isDigit then digitsVal cs (acc * 10 + (c.toNat - 48)) else none

/-- A non-empty all-digit string, as a number. -/
def parseDigits (l : List Char) : Option Nat :=
  if l.isEmpty then none else digitsVal l 0

/-- A possibly-empty all-digit string (an absent integer or fraction part of
a float literal contributes 0). -/
def parseDigitsOpt (l : List Char) : Option Nat :=
  if l.isEmpty then some 0 else digitsVal l 0

/-- Python `int(tok)` on the token shapes a scoreboard line can contain:
optional sign followed by decimal digits; anything else raises
(modelled as `none`). -/
def pyParseInt (s : String) : Option Int :=
  match s.data with
  | [] => none
  | c :: rest =>
    if c = '+' then (parseDigits rest).map (fun n => (n : Int))
    else if c = '-' then (parseDigits rest).map (fun n => -(n : Int))
    else (parseDigits (c :: rest)).map (fun n => (n : Int))

/-- Split a character list at `'.'` separators, keeping empty segments. -/
def splitDotGo : List Char → List Char → List (List Char)
  | [], acc => [acc.reverse]
  | c :: cs, acc =>
    if c = '.' then acc.reverse :: splitDotGo cs [] else splitDotGo cs (c :: acc)

/-- Python `float(tok)` on plain decimal literals: optional sign, digits with
at most one decimal point and at least one digit (`"1."`, `".5"` are legal,
`"."` is not); exponent/`inf`/`nan` forms never occur in scoreboard files and
are outside the modelled fragment. -/
def pyParseFloatBody (l : List Char) : Option ℚ :=
  match splitDotGo l [] with
  | [a] => (parseDigits a).map (fun n => (n : ℚ))
  | [a, b] =>
    if a.isEmpty ∧ b.isEmpty then none
    else
      match parseDigitsOpt a, parseDigitsOpt b with
      | some ia, some fb => some ((ia : ℚ) + (fb : ℚ) / ((10 : ℚ) ^ b.length))
      | _, _ => none
  | _ => none

/-- Python `float(tok)` with the optional sign. -/
def pyParseFloat (s : String) : Option ℚ :=
  match s.data with
  | [] => none
  | c :: rest =>
    if c = '+' then pyParseFloatBody rest
    else if c = '-' then (pyParseFloatBody rest).map (fun q => -q)
    else pyParseFloatBody (c :: rest)

deriving instance DecidableEq for Except

/-- A scoreboard entry `(initials, score, time)`. -/
abbrev Entry := String × Int × ℚ

/-- The shared line preprocessing of `save_score` and `check_top10`:
`parts = line.strip().split()`, then drop a leading token ending in `'.'`
(the rank). -/
def lineParts (line : String) : List String :=
  match pySplit line with
  | [] => []
  | p0 :: rest => if endsWithDot p0 then rest else p0 :: rest

/-- One loop iteration of `save_score`'s reader: a line whose (rank-stripped)
field count is not 3 is silently skipped (`.ok none`); a 3-field line parses
`int(parts[1])` then `float(parts[2])`, either of which can raise
(`.error`). -/
def parseScoreLine (line : String) : Except Unit (Option Entry) :=
  match lineParts line with
  | [a, b, c] =>
    match pyParseInt b with
    | none => Except.error ()
    | some i =>
      match pyParseFloat c with
      | none => Except.error ()
      | some q => Except.ok (some (a, i, q))
  | _ => Except.ok none

/-- One loop iteration of `check_top10`'s reader: unlike `save_score` it only
evaluates `float(parts[2])`, so only a malformed time field raises. -/
def parseTimeLine (line : String) : Except Unit (Option ℚ) :=
  match lineParts line with
  | [_, _, c] =>
    match pyParseFloat c with
    | none => Except.error ()
    | some q => Except.ok (some q)
  | _ => Except.ok none

/-- The reading loop of `save_score` under Python's exception semantics: an
exception raised mid-loop is caught by `except: pass`, keeping the entries
appended before the failing line and abandoning the rest of the file. -/
def readScores : List String → List Entry
  | [] => []
  | l :: rest =>
    match parseScoreLine l with
    | Except.error _ => []
    | Except.ok none => readScores rest
    | Except.ok (some e) => e :: readScores rest

/-- The reading loop of `check_top10`: the surrounding `except: return True`
makes any raise abort the whole check, so the error is propagated. -/
def readTimesE : List String → Except Unit (List ℚ)
  | [] => Except.ok []
  | l :: rest =>
    match parseTimeLine l with
    | Except.error _ => Except.error ()
    | Except.ok none => readTimesE rest
    | Except.ok (some q) => (readTimesE rest).map (fun ts => q :: ts)

/-- Stable insertion by the time field (new entries go after existing
equal-time entries, as Python's stable `list.sort(key=...)` places a
later-positioned element). -/
def insertEntry (e : Entry) : List Entry → List Entry
  | [] => [e]
  | x :: xs => if x.2.2 ≤ e.2.2 then x :: insertEntry e xs else e :: x :: xs

/-- Python's `scores.sort(key=lambda x: x[2])`: stable sort, ascending by time. -/
def sortEntries (l : List Entry) : List Entry :=
  l.foldl (fun acc e => insertEntry e acc) []

/-- Insertion into a sorted rational list. -/
def insertQ (q : ℚ) : List ℚ → List ℚ
  | [] => [q]
  | x :: xs => if x ≤ q then x :: insertQ q xs else q :: x :: xs

/-- Python's `scores.sort()` on the plain time list of `check_top10`. -/
def sortQ (l : List ℚ) : List ℚ :=
  l.foldl (fun acc q => insertQ q acc) []

/-- The tail of `check_top10` after the guarded read: an exception anywhere
in the read (`Except.error`) returns `True`; fewer than 10 parsed times
always qualifies; otherwise compare against the worst (last after sorting)
time, mirroring `ttime < scores[-1] if scores else True`. -/
def check_top10_parsed : Except Unit (List ℚ) → ℚ → Bool
  | Except.error _, _ => true
  | Except.ok scores, ttime =>
    if scores.length < 10 then true
    else
      match (sortQ scores).getLast? with
      | some worst => decide (ttime < worst)
      | none => true

/-- Function `check_top10(ttime)` over the file content (`none` = missing file, which
makes `open` raise and the function return `True`). -/
def check_top10 (file : Option (List String)) (ttime : ℚ) : Bool :=
  match file with
  | none => true
  | some lines => check_top10_parsed (readTimesE lines) ttime

/-- The entry list `save_score` writes: parsed old entries (reader semantics
above), plus the new `(initials, sc, ttime)` appended, stably sorted by time,
truncated to 10. -/
def save_score_entries (file : Option (List String)) (initials : String)
    (sc : Int) (ttime : ℚ) : List Entry :=
  let scores := (match file with | none => [] | some lines => readScores lines)
    ++ [(initials, sc, ttime)]
  (sortEntries scores).take 10

/-- Decimal digit character (`str` of one digit). -/
def digitChar (n : Nat) : Char :=
  if n = 0 then '0' else if n = 1 then '1' else if n = 2 then '2'
  else if n = 3 then '3' else if n = 4 then '4' else if n = 5 then '5'
  else if n = 6 then '6' else if n = 7 then '7' else if n = 8 then '8'
  else '9'

/-- Decimal digits of `n`, least significant first, with enough fuel for any
value occurring in a scoreboard (Python prints arbitrary precision; the fuel
of 30 covers every value below 10^30). -/
def natToRevDigits : Nat → Nat → List Char
  | 0, _ => []
  | fuel + 1, n => if n = 0 then [] else digitChar (n % 10) :: natToRevDigits fuel (n / 10)

/-- Python `str(n)` for a natural number. -/
def natToStr (n : Nat) : String :=
  if n = 0 then "0" else String.mk (natToRevDigits 30 n).reverse

/-- Python `str(i)` for an integer. -/
def intToStr (i : Int) : String :=
  if i < 0 then "-" ++ natToStr i.natAbs else natToStr i.natAbs

/-- The integer the `"%.2f"` format rounds `q*100` to.  (Python rounds the
underlying double to two decimals; on the exact rationals of this model the
rounding is to the nearest cent, which agrees with Python on all inputs whose
value is not within double-rounding distance of a half-cent tie.) -/
def round2int (q : ℚ) : Int := Int.floor (q * 100 + 1/2)

/-- The numeric value printed by `f"{q:.2f}"`. -/
def round2 (q : ℚ) : ℚ := (round2int q : ℚ) / 100

/-- Rendering of a cent count as a two-decimal string: sign, integer part,
dot, zero-padded two-digit fraction. -/
def fmt2cents (c : Int) : String :=
  (if c < 0 then "-" else "") ++ natToStr (c.natAbs / 100) ++ "." ++
  (if c.natAbs % 100 < 10 then "0" ++ natToStr (c.natAbs % 100)
   else natToStr (c.natAbs % 100))

/-- Python's two-decimal float format of `q`. -/
def fmt2 (q : ℚ) : String := fmt2cents (round2int q)

/-- One written scoreboard line `f"{i}. {e[0]} {e[1]} {e[2]:.2f}"` (the
trailing newline of `f.write` is the line separator of the file model). -/
def formatLine (i : Nat) (e : Entry) : String :=
  natToStr i ++ ". " ++ e.1 ++ " " ++ intToStr e.2.1 ++ " " ++ fmt2 e.2.2

/-- The lines `save_score` leaves in `scoreboard.txt`. -/
def save_score_lines (file : Option (List String)) (initials : String)
    (sc : Int) (ttime : ℚ) : List String :=
  ((save_score_entries file initials sc ttime).enum).map
    (fun pe => formatLine (pe.1 + 1) pe.2)


/-- The exact condition under which the hazard block of `Player.update` calls
`hit` on a frame starting from state `s`: after integration the decremented
invulnerability counter is 0, a hazardous platform overlaps the box, and the
`hit_recently` latch is clear. -/
def hitFired (s : Player) (plats : List Platform) : Bool :=
  (decide ((tickInvul (integrate s)).invul = 0) &&
    plats.any (fun p => hazardOverlap (tickInvul (integrate s)) p)) &&
  !(tickInvul (integrate s)).hit_recently

/-- The player state at the landing check of `Player.update`: after
integration, invulnerability decrement and the hazard block. -/
def afterHazard (s : Player) (plats : List Platform) : Player :=
  hazardPhase (tickInvul (integrate s)) plats

/-- The exact condition under which the landing block of `Player.update`
snaps the player onto a platform on a frame starting from state `s`. -/
def landed (s : Player) (plats : List Platform) : Bool :=
  ((afterHazard s plats).alive && decide (0 ≤ (afterHazard s plats).vy)) &&
  (plats.find? (landCond (afterHazard s plats))).isSome

/-- The state of being at rest on platform `p`: bottom edge on the platform's
top edge, no vertical velocity, already landed once (`jumps = 0`,
`initial = false`), alive, horizontally inside the screen, and `p` is the
platform the landing scan of the next frame finds. -/
def RestingOn (p : Platform) (plats : List Platform) (s : Player) : Prop :=
  s.y = p.y - s.h ∧ s.vy = 0 ∧ s.jumps = 0 ∧ s.initial = false ∧
  s.alive = true ∧ 0 ≤ s.x ∧ s.x + s.w ≤ WIDTH ∧
  plats.find? (landCond (tickInvul (integrate s))) = some p

/-- Concrete fixture: a hazardous platform covering the whole screen, so the
player's box overlaps it at every position. -/
def hazAll : Platform := { x := 0, y := 0, w := 800, h := 600, hazard := true }

/-- Concrete fixture: a mid-air player with 2 frames of invulnerability
remaining. -/
def pInv2 : Player :=
  { x := 100, y := 100, w := 50, h := 50, vy := 0, jumps := 0, score := 0,
    lives := 3, initial := false, alive := true, double_end := 0, invul := 2,
    hit_recently := false, start_x := 100, start_y := 100 }

/-- Concrete fixture: the same player with 1 frame of invulnerability. -/
def pInv1 : Player := { pInv2 with invul := 1 }

/-- Concrete fixture: a vulnerable falling player with both jumps spent. -/
def pJump2 : Player :=
  { x := 100, y := 100, w := 50, h := 50, vy := 3, jumps := 2, score := 0,
    lives := 3, initial := false, alive := true, double_end := 0, invul := 0,
    hit_recently := false, start_x := 100, start_y := 100 }

/-- Concrete fixture: the same player with one jump spent. -/
def pJump1 : Player := { pJump2 with jumps := 1 }

/-- Concrete fixture: a free-standing special item overlapping `pJump2`. -/
def itSpec : Item :=
  { plat := none, ox := 0, oy := 0, x := 100, y := 100, w := 30, h := 30,
    special := true }

/-- Concrete fixture: a player fallen past the bottom of the screen with all
3 lives and score 0. -/
def pFall : Player :=
  { x := 100, y := 601, w := 50, h := 50, vy := 5, jumps := 2, score := 0,
    lives := 3, initial := false, alive := true, double_end := 0, invul := 0,
    hit_recently := false, start_x := 100, start_y := 450 }

/-- Concrete fixture: a safe full-width platform with its top edge at
`y = 500`. -/
def pSafe : Platform := { x := 0, y := 500, w := 800, h := 20, hazard := false }

/-- Concrete fixture: a player falling just above `pSafe`. -/
def pLand : Player :=
  { x := 100, y := 449, w := 50, h := 50, vy := 1, jumps := 2, score := 0,
    lives := 3, initial := true, alive := true, double_end := 0, invul := 0,
    hit_recently := false, start_x := 100, start_y := 449 }

/-- Concrete fixture: a player at rest on `pSafe` (bottom edge at `y = 500`). -/
def pRest : Player :=
  { x := 100, y := 450, w := 50, h := 50, vy := 0, jumps := 0, score := 0,
    lives := 3, initial := false, alive := true, double_end := 0, invul := 0,
    hit_recently := false, start_x := 100, start_y := 450 }

/-- Projections of the clamping phase: it changes only `x`. -/
theorem clampX_proj (s : Player) :
    (clampX s).y = s.y ∧ (clampX s).vy = s.vy ∧ (clampX s).jumps = s.jumps ∧
    (clampX s).initial = s.initial ∧ (clampX s).lives = s.lives ∧
    (clampX s).invul = s.invul ∧ (clampX s).hit_recently = s.hit_recently ∧
    (clampX s).alive = s.alive ∧ (clampX s).h = s.h ∧ (clampX s).w = s.w ∧
    (clampX s).score = s.score := by
  unfold clampX clampHigh clampLow
  split <;> split <;> exact ⟨rfl, rfl, rfl, rfl, rfl, rfl, rfl, rfl, rfl, rfl, rfl⟩

/-- Projections of the landing phase: it never changes `x`, `lives`, `invul`,
`hit_recently`, `alive`, the box size, the score or the bonus expiry. -/
theorem landPhase_proj (s : Player) (plats : List Platform) :
    (landPhase s plats).x = s.x ∧ (landPhase s plats).lives = s.lives ∧
    (landPhase s plats).invul = s.invul ∧
    (landPhase s plats).hit_recently = s.hit_recently ∧
    (landPhase s plats).alive = s.alive ∧ (landPhase s plats).h = s.h ∧
    (landPhase s plats).w = s.w ∧ (landPhase s plats).score = s.score ∧
    (landPhase s plats).double_end = s.double_end := by
  unfold landPhase
  split
  · cases plats.find? (landCond s) <;>
      exact ⟨rfl, rfl, rfl, rfl, rfl, rfl, rfl, rfl, rfl⟩
  · exact ⟨rfl, rfl, rfl, rfl, rfl, rfl, rfl, rfl, rfl⟩

/-- Projections of the invulnerability decrement: it changes only `invul`. -/
theorem tickInvul_proj (s : Player) :
    (tickInvul s).x = s.x ∧ (tickInvul s).y = s.y ∧ (tickInvul s).vy = s.vy ∧
    (tickInvul s).jumps = s.jumps ∧ (tickInvul s).initial = s.initial ∧
    (tickInvul s).lives = s.lives ∧
    (tickInvul s).hit_recently = s.hit_recently ∧
    (tickInvul s).alive = s.alive ∧ (tickInvul s).h = s.h ∧
    (tickInvul s).w = s.w ∧ (tickInvul s).score = s.score := by
  unfold tickInvul
  split <;> exact ⟨rfl, rfl, rfl, rfl, rfl, rfl, rfl, rfl, rfl, rfl, rfl⟩

/-- The hazard block calls `hit` when a collision is detected and the latch
is clear. -/
theorem hazardPhase_fired (s : Player) (plats : List Platform)
    (hc : (decide (s.invul = 0) && plats.any (fun p => hazardOverlap s p)) = true)
    (hr : s.hit_recently = false) :
    hazardPhase s plats = s.hit := by
  unfold hazardPhase
  rw [hc, hr]
  rfl

/-- The hazard block does nothing when a collision is detected but the latch
is set. -/
theorem hazardPhase_latched (s : Player) (plats : List Platform)
    (hc : (decide (s.invul = 0) && plats.any (fun p => hazardOverlap s p)) = true)
    (hr : s.hit_recently = true) :
    hazardPhase s plats = s := by
  unfold hazardPhase
  rw [hc, hr]
  rfl

/-- The hazard block clears the latch when no collision is detected. -/
theorem hazardPhase_clear (s : Player) (plats : List Platform)
    (hc : (decide (s.invul = 0) && plats.any (fun p => hazardOverlap s p)) = false) :
    hazardPhase s plats = { s with hit_recently := false } := by
  unfold hazardPhase
  rw [hc]
  rfl

/-- A hit always decrements lives by exactly one. -/
theorem hit_lives (s : Player) : (s.hit).lives = s.lives - 1 := by
  unfold Player.hit
  split <;> rfl

/-- The lives after a frame are the lives after the hazard block (the later
phases never touch them). -/
theorem update_lives_eq (s : Player) (plats : List Platform) :
    (Player.update s plats).lives =
      (hazardPhase (tickInvul (integrate s)) plats).lives := by
  unfold Player.update
  rw [(clampX_proj _).2.2.2.2.1, (landPhase_proj _ plats).2.1]

/-- C1 (amended): in each `Player.update` frame, `hit` — and with it the
lives decrement — occurs exactly when `hitFired` holds (post-integration
`invul` is 0, a hazardous platform overlaps the bounding box, and
`hit_recently` is clear); a hit that leaves lives also sets `invul = 30` and
the latch, so the hit cannot re-fire on the immediately following frame.  The
original claim's "exactly once per overlap run, on its first frame" fails
because the overlap scan is skipped while `invul > 0` (see the
counterexample): within one uninterrupted geometric overlap the single hit
can be delayed until invulnerability expires, and can recur after the
30-frame window of a previous hit. -/
theorem c1_hazard_hit_amended (s : Player) (plats : List Platform) :
    ((Player.update s plats).lives =
      if hitFired s plats then s.lives - 1 else s.lives) ∧
    (hitFired s plats = true → 1 < s.lives →
      (Player.update s plats).invul = 30 ∧
      (Player.update s plats).hit_recently = true ∧
      hitFired (Player.update s plats) plats = false) := by
  have hlv : (tickInvul (integrate s)).lives = s.lives :=
    (tickInvul_proj (integrate s)).2.2.2.2.2.1
  constructor
  · rw [update_lives_eq]
    by_cases hf : hitFired s plats = true
    · obtain ⟨hc, hr⟩ := Bool.and_eq_true_iff.mp hf
      rw [hazardPhase_fired _ _ hc (by simpa using hr), hf, if_pos rfl,
        hit_lives, hlv]
    · rw [if_neg hf]
      unfold hitFired at hf
      by_cases hc : (decide ((tickInvul (integrate s)).invul = 0) &&
          plats.any (fun p => hazardOverlap (tickInvul (integrate s)) p)) = true
      · have hr : (tickInvul (integrate s)).hit_recently = true := by
          cases hrec : (tickInvul (integrate s)).hit_recently
          · exact absurd (by rw [hc, hrec]; rfl) hf
          · rfl
        rw [hazardPhase_latched _ _ hc hr, hlv]
      · rw [hazardPhase_clear _ _ (Bool.not_eq_true _ ▸ Bool.of_not_eq_true hc)]
        exact hlv
  · intro hf hl
    obtain ⟨hc, hr⟩ := Bool.and_eq_true_iff.mp hf
    have hself := hazardPhase_fired _ plats hc (by simpa using hr)
    have hlm1 : ¬((tickInvul (integrate s)).lives - 1 ≤ 0) := by
      rw [hlv]
      omega
    have hhit : ((tickInvul (integrate s)).hit).invul = 30 ∧
        ((tickInvul (integrate s)).hit).hit_recently = true := by
      unfold Player.hit
      rw [if_neg hlm1]
      exact ⟨rfl, rfl⟩
    have hinv : (Player.update s plats).invul = 30 := by
      unfold Player.update
      rw [(clampX_proj _).2.2.2.2.2.1, (landPhase_proj _ plats).2.2.1, hself,
        hhit.1]
    have hrec : (Player.update s plats).hit_recently = true := by
      unfold Player.update
      rw [(clampX_proj _).2.2.2.2.2.2.1, (landPhase_proj _ plats).2.2.2.1,
        hself, hhit.2]
    refine ⟨hinv, hrec, ?_⟩
    unfold hitFired
    have h29 : (tickInvul (integrate (Player.update s plats))).invul = 29 := by
      have hii : (integrate (Player.update s plats)).invul = 30 := hinv
      unfold tickInvul
      rw [hii]
      norm_num
    rw [h29]
    norm_num

/-- C1 (counterexample): a player whose box overlaps a hazardous platform on
two consecutive frames — before, during and after both frames — but who
starts with 2 frames of invulnerability: the hit procedure does not run on
the first overlap frame of the run (lives unchanged) and runs on the second
(lives decremented), refuting "invoked exactly once over that run — on its
first frame". -/
theorem c1_counterexample :
    hazardOverlap pInv2 hazAll = true ∧
    hazardOverlap (tickInvul (integrate pInv2)) hazAll = true ∧
    hazardOverlap (tickInvul (integrate (Player.update pInv2 [hazAll]))) hazAll
      = true ∧
    (Player.update pInv2 [hazAll]).lives = pInv2.lives ∧
    (Player.update (Player.update pInv2 [hazAll]) [hazAll]).lives =
      pInv2.lives - 1 := by
  norm_num [Player.update, Player.hit, integrate, gravAccel, newVy, tickInvul,
    hazardPhase, hazardOverlap, landPhase, landCond, clampX, clampLow,
    clampHigh, pInv2, hazAll, GRAV, EASYGRAV, WIDTH, List.find?, List.any]

/-- C1 (witness): the amended theorem applied to a vulnerable player standing
in a hazard — the hit fires, grants 30 frames of invulnerability, sets the
latch, and cannot re-fire on the next frame. -/
theorem c1_witness :
    hitFired pJump2 [hazAll] = true ∧ 1 < pJump2.lives ∧
    (Player.update pJump2 [hazAll]).invul = 30 ∧
    (Player.update pJump2 [hazAll]).hit_recently = true ∧
    hitFired (Player.update pJump2 [hazAll]) [hazAll] = false := by
  have h1 : hitFired pJump2 [hazAll] = true := by
    norm_num [hitFired, integrate, gravAccel, newVy, tickInvul, hazardOverlap,
      pJump2, hazAll, GRAV, EASYGRAV, List.any]
  have h2 : (1 : Int) < pJump2.lives := by norm_num [pJump2]
  have h3 := (c1_hazard_hit_amended pJump2 [hazAll]).2 h1 h2
  exact ⟨h1, h2, h3.1, h3.2.1, h3.2.2⟩

/-- Hazardous platforms never satisfy the landing test, so filtering them out
does not change the landing scan. -/
theorem find?_filter_nonhazard (s : Player) (l : List Platform) :
    (l.filter (fun p => !p.hazard)).find? (landCond s) = l.find? (landCond s) := by
  induction l with
  | nil => rfl
  | cons p t ih =>
    by_cases hp : p.hazard = true
    · have h1 : landCond s p = false := by simp [landCond, hp]
      simp [List.filter_cons, hp, List.find?, h1, ih]
    · have hp' : p.hazard = false := by simpa using hp
      cases h2 : landCond s p <;>
        simp [List.filter_cons, hp', List.find?, h2, ih]

/-- The landing phase ignores hazardous platforms. -/
theorem landPhase_filter_nonhazard (s : Player) (plats : List Platform) :
    landPhase s (plats.filter (fun p => !p.hazard)) = landPhase s plats := by
  unfold landPhase
  rw [find?_filter_nonhazard]

/-- C10 (amended): when `invul ≥ 2` at the start of `Player.update` (so it is
still positive after the decrement), hazardous platforms have no effect at
all on the frame (the update equals the update with every hazard removed),
lives are unchanged, `hit_recently` is reset to `false`, and `invul`
decreases by exactly 1.  The original claim's "invul positive at the start"
fails at `invul = 1`: the counter is decremented to 0 first and the hazard
scan then runs in the same frame (see the counterexample). -/
theorem c10_invul_amended (s : Player) (plats : List Platform)
    (h2 : 2 ≤ s.invul) :
    Player.update s plats = Player.update s (plats.filter (fun p => !p.hazard)) ∧
    (Player.update s plats).lives = s.lives ∧
    (Player.update s plats).invul = s.invul - 1 ∧
    (Player.update s plats).hit_recently = false := by
  have hint : (integrate s).invul = s.invul := rfl
  have htick : (tickInvul (integrate s)).invul = s.invul - 1 := by
    simp [tickInvul, hint, show (0 : Int) < s.invul by omega]
  have hnz : ¬((tickInvul (integrate s)).invul = 0) := by
    rw [htick]
    omega
  have hc : ∀ l : List Platform,
      (decide ((tickInvul (integrate s)).invul = 0) &&
        l.any (fun p => hazardOverlap (tickInvul (integrate s)) p)) = false := by
    intro l
    simp [hnz]
  have hH : ∀ l : List Platform,
      hazardPhase (tickInvul (integrate s)) l =
        { tickInvul (integrate s) with hit_recently := false } :=
    fun l => hazardPhase_clear _ _ (hc l)
  refine ⟨?_, ?_, ?_, ?_⟩
  · unfold Player.update
    rw [hH plats, hH (plats.filter (fun p => !p.hazard)),
      landPhase_filter_nonhazard]
  · rw [update_lives_eq, hH plats]
    exact (tickInvul_proj (integrate s)).2.2.2.2.2.1
  · unfold Player.update
    rw [(clampX_proj _).2.2.2.2.2.1, (landPhase_proj _ plats).2.2.1, hH plats]
    exact htick
  · unfold Player.update
    rw [(clampX_proj _).2.2.2.2.2.2.1, (landPhase_proj _ plats).2.2.2.1,
      hH plats]

/-- C10 (counterexample): with `invul = 1` at the start of the frame — a
positive value — the hazard test is not skipped: the counter reaches 0 during
the same update and the overlapping hazard costs a life, refuting "the hazard
overlap test is skipped entirely whenever invul is positive at the start". -/
theorem c10_counterexample :
    0 < pInv1.invul ∧ (Player.update pInv1 [hazAll]).lives = pInv1.lives - 1 := by
  norm_num [Player.update, Player.hit, integrate, gravAccel, newVy, tickInvul,
    hazardPhase, hazardOverlap, landPhase, landCond, clampX, clampLow,
    clampHigh, pInv1, pInv2, hazAll, GRAV, EASYGRAV, WIDTH, List.find?,
    List.any]

/-- C10 (witness): the amended theorem applied to a player with `invul = 2`
standing in a hazard. -/
theorem c10_witness :
    2 ≤ pInv2.invul ∧ (Player.update pInv2 [hazAll]).lives = pInv2.lives ∧
    (Player.update pInv2 [hazAll]).invul = pInv2.invul - 1 ∧
    (Player.update pInv2 [hazAll]).hit_recently = false := by
  have h := c10_invul_amended pInv2 [hazAll] (by norm_num [pInv2])
  exact ⟨by norm_num [pInv2], h.2.1, h.2.2.1, h.2.2.2⟩

/-- The score step of collection never changes the bonus expiry. -/
theorem applyScore_double_end (now : Int) (s : Player) :
    (applyScore now s).double_end = s.double_end := by
  unfold applyScore
  split <;> rfl

/-- The score step awards 2 points strictly before the expiry, 1 point
otherwise. -/
theorem applyScore_score (now : Int) (s : Player) :
    (applyScore now s).score = s.score + (if now < s.double_end then 2 else 1) := by
  unfold applyScore
  split <;> simp [*]

/-- The special step sets the expiry to `now + 5000` for a special item and
leaves it alone otherwise. -/
theorem applySpecial_double_end (now : Int) (s : Player) (it : Item) :
    (applySpecial now s it).double_end =
      (if it.special then now + 5000 else s.double_end) := by
  unfold applySpecial
  split <;> simp [*]

/-- The special step never changes the score. -/
theorem applySpecial_score (now : Int) (s : Player) (it : Item) :
    (applySpecial now s it).score = s.score := by
  unfold applySpecial
  split <;> rfl

/-- C3: collecting an overlapping item at time `now` removes it; a special
item sets the double-score expiry to exactly `now + 5000`, unconditionally
replacing (not extending) any prior window, while a plain item leaves the
expiry untouched; the item awards 2 points when `now` is strictly before the
(possibly just-reset) expiry and 1 point otherwise — in particular a special
item always awards 2, and a pickup at exactly the expiry instant awards 1. -/
theorem c3_double_score (now : Int) (s : Player) (it : Item)
    (hov : itemOverlap s it = true) :
    (Player.collect now s [it]).2 = [] ∧
    (Player.collect now s [it]).1.double_end =
      (if it.special then now + 5000 else s.double_end) ∧
    (Player.collect now s [it]).1.score =
      s.score + (if now < (if it.special then now + 5000 else s.double_end)
                 then 2 else 1) := by
  have hc : Player.collect now s [it] = (collectOne now s it, []) := by
    simp [Player.collect, hov]
  rw [hc]
  refine ⟨rfl, ?_, ?_⟩
  · rw [show collectOne now s it = applyScore now (applySpecial now s it)
      from rfl, applyScore_double_end, applySpecial_double_end]
  · rw [show collectOne now s it = applyScore now (applySpecial now s it)
      from rfl, applyScore_score, applySpecial_score, applySpecial_double_end]

/-- C3 (witness): collecting an overlapping special item at tick 1000 sets
the expiry to 6000 and awards 2 points. -/
theorem c3_witness :
    itemOverlap pJump2 itSpec = true ∧
    (Player.collect 1000 pJump2 [itSpec]).1.double_end = 1000 + 5000 ∧
    (Player.collect 1000 pJump2 [itSpec]).1.score = pJump2.score + 2 ∧
    (Player.collect 1000 pJump2 [itSpec]).2 = [] := by
  have hov : itemOverlap pJump2 itSpec = true := by
    norm_num [itemOverlap, Item.get_x, Item.get_y, pJump2, itSpec]
  have h := c3_double_score 1000 pJump2 itSpec hov
  refine ⟨hov, ?_, ?_, h.1⟩
  · rw [h.2.1]
    norm_num [itSpec]
  · rw [h.2.2]
    norm_num [itSpec]

/-- Projections of a hit that leaves at least one life: respawn at the start
position with fresh invulnerability. -/
theorem hit_respawn_proj (s : Player) (h : ¬(s.lives - 1 ≤ 0)) :
    (s.hit).lives = s.lives - 1 ∧ (s.hit).x = s.start_x ∧
    (s.hit).y = s.start_y ∧ (s.hit).alive = s.alive ∧
    (s.hit).score = s.score ∧ (s.hit).invul = 30 ∧ (s.hit).vy = 0 ∧
    (s.hit).jumps = 0 := by
  unfold Player.hit
  rw [if_neg h]
  exact ⟨rfl, rfl, rfl, rfl, rfl, rfl, rfl, rfl⟩

/-- Projections of a hit that exhausts the lives: only `lives` and `alive`
change. -/
theorem hit_dead_proj (s : Player) (h : s.lives - 1 ≤ 0) :
    (s.hit).lives = s.lives - 1 ∧ (s.hit).alive = false ∧
    (s.hit).score = s.score := by
  unfold Player.hit
  rw [if_pos h]
  exact ⟨rfl, rfl, rfl⟩

/-- C2 (amended): a fall past the bottom boundary (`y > HEIGHT`) consumes a
life through the hit procedure whenever lives remain: with 2 or more lives
the player respawns at the start position and the session does NOT go to game
over (it keeps playing, or completes the level if the goal is already met);
the transition to `GameOver` — recording the attained score — happens exactly
when the fall consumes the last life, or when the player was already out of
lives; the score-versus-goal comparison is never consulted by the fall
branch.  The original claim's "whenever the player falls below the screen
while short of the goal the session transitions to GameOver" fails for any
fall with 2 or more lives (see the counterexample). -/
theorem c2_fall_amended (s : Player) (lvl : Nat) (hy : s.y > HEIGHT)
    (ha : s.alive = true) :
    (2 ≤ s.lives →
      (frameEnd s lvl).1.lives = s.lives - 1 ∧
      (frameEnd s lvl).1.x = s.start_x ∧ (frameEnd s lvl).1.y = s.start_y ∧
      ((frameEnd s lvl).2 = Outcome.keepPlaying ∨
        (frameEnd s lvl).2 = Outcome.levelComplete)) ∧
    (s.lives = 1 →
      (frameEnd s lvl).2 =
        Outcome.gameOver s.score (max (levelGoal lvl - s.score) 0)) ∧
    (s.lives ≤ 0 →
      (frameEnd s lvl).2 =
        Outcome.gameOver s.score (max (levelGoal lvl - s.score) 0)) := by
  refine ⟨?_, ?_, ?_⟩
  · intro h2
    have hp := hit_respawn_proj s (by omega)
    have hfe : frameEnd s lvl = deathAndGoalCheck s.hit lvl := by
      unfold frameEnd
      rw [if_pos hy, if_pos (show (0 : Int) < s.lives by omega)]
    have hna : ¬((s.hit).alive = false) := by
      rw [hp.2.2.2.1, ha]
      simp
    rw [hfe]
    unfold deathAndGoalCheck
    rw [if_neg hna]
    split
    · exact ⟨hp.1, hp.2.1, hp.2.2.1, Or.inr rfl⟩
    · exact ⟨hp.1, hp.2.1, hp.2.2.1, Or.inl rfl⟩
  · intro h1
    have hd := hit_dead_proj s (by omega)
    have hfe : frameEnd s lvl = deathAndGoalCheck s.hit lvl := by
      unfold frameEnd
      rw [if_pos hy, if_pos (show (0 : Int) < s.lives by omega)]
    rw [hfe]
    unfold deathAndGoalCheck
    rw [if_pos hd.2.1]
    unfold gameOverData
    rw [hd.2.2]
  · intro h0
    unfold frameEnd
    rw [if_pos hy, if_neg (by omega : ¬((0 : Int) < s.lives))]
    rfl

/-- C2 (counterexample): a player below the bottom boundary with score 0
(short of the level-1 goal of 10) and 3 lives does not trigger game over —
the frame outcome is to keep playing, with the player respawned alive. -/
theorem c2_counterexample :
    pFall.y > HEIGHT ∧ pFall.score < levelGoal 1 ∧
    (frameEnd pFall 1).2 = Outcome.keepPlaying ∧
    (frameEnd pFall 1).1.alive = true := by
  norm_num [frameEnd, deathAndGoalCheck, gameOverData, Player.hit, pFall,
    HEIGHT, levelGoal, level_goals]

/-- C2 (witness): the amended theorem applied to the fallen 3-life player. -/
theorem c2_witness :
    pFall.y > HEIGHT ∧ pFall.alive = true ∧ 2 ≤ pFall.lives ∧
    (frameEnd pFall 1).1.lives = pFall.lives - 1 ∧
    ((frameEnd pFall 1).2 = Outcome.keepPlaying ∨
      (frameEnd pFall 1).2 = Outcome.levelComplete) := by
  have h := (c2_fall_amended pFall 1 (by norm_num [pFall, HEIGHT])
    (by norm_num [pFall])).1 (by norm_num [pFall])
  exact ⟨by norm_num [pFall, HEIGHT], by norm_num [pFall], by norm_num [pFall],
    h.1, h.2.2.2⟩

/-- Unfolding of `Player.update` into its phases at the `afterHazard`
boundary. -/
theorem update_eq_phases (s : Player) (plats : List Platform) :
    Player.update s plats = clampX (landPhase (afterHazard s plats) plats) := rfl

/-- Projections of the hazard block: it never changes the box size, the score
or the bonus expiry. -/
theorem hazardPhase_proj (s : Player) (l : List Platform) :
    (hazardPhase s l).h = s.h ∧ (hazardPhase s l).w = s.w ∧
    (hazardPhase s l).score = s.score ∧
    (hazardPhase s l).double_end = s.double_end := by
  unfold hazardPhase Player.hit
  split
  · split
    · exact ⟨rfl, rfl, rfl, rfl⟩
    · split
      · exact ⟨rfl, rfl, rfl, rfl⟩
      · exact ⟨rfl, rfl, rfl, rfl⟩
  · exact ⟨rfl, rfl, rfl, rfl⟩

/-- The player's height is unchanged up to the landing check. -/
theorem afterHazard_h (s : Player) (plats : List Platform) :
    (afterHazard s plats).h = s.h := by
  unfold afterHazard
  rw [(hazardPhase_proj _ _).1, (tickInvul_proj _).2.2.2.2.2.2.2.2.1]
  rfl

/-- The hazard block either resets the jump counter (respawn) or leaves it
alone. -/
theorem hazardPhase_jumps_cases (s : Player) (l : List Platform) :
    (hazardPhase s l).jumps = 0 ∨ (hazardPhase s l).jumps = s.jumps := by
  unfold hazardPhase Player.hit
  split
  · split
    · right; rfl
    · split
      · right; rfl
      · left; rfl
  · right; rfl

/-- A frame either resets the jump counter (landing or hit respawn) or leaves
it alone. -/
theorem update_jumps_cases (s : Player) (plats : List Platform) :
    (Player.update s plats).jumps = 0 ∨ (Player.update s plats).jumps = s.jumps := by
  have h1 : (Player.update s plats).jumps =
      (landPhase (afterHazard s plats) plats).jumps := by
    rw [update_eq_phases]
    exact (clampX_proj _).2.2.1
  have h2 : (tickInvul (integrate s)).jumps = s.jumps :=
    (tickInvul_proj (integrate s)).2.2.2.1
  rw [h1]
  unfold landPhase
  split
  · cases hfind : plats.find? (landCond (afterHazard s plats)) with
    | some p => left; rfl
    | none =>
      rcases hazardPhase_jumps_cases (tickInvul (integrate s)) plats with h | h
      · left; exact h
      · right
        rw [show (afterHazard s plats).jumps =
          (hazardPhase (tickInvul (integrate s)) plats).jumps from rfl, h, h2]
  · rcases hazardPhase_jumps_cases (tickInvul (integrate s)) plats with h | h
    · left; exact h
    · right
      rw [show (afterHazard s plats).jumps =
        (hazardPhase (tickInvul (integrate s)) plats).jumps from rfl, h, h2]

/-- When the landing condition does not fire, the landing phase is the
identity. -/
theorem landPhase_not_landed (s : Player) (plats : List Platform)
    (h : landed s plats = false) :
    landPhase (afterHazard s plats) plats = afterHazard s plats := by
  unfold landed at h
  unfold landPhase
  split
  · next hcond =>
    cases hfind : plats.find? (landCond (afterHazard s plats)) with
    | none => rfl
    | some p =>
      exfalso
      rw [hcond.1] at h
      simp [hcond.2, hfind] at h
  · rfl

/-- When the hazard block does not call `hit`, the jump counter survives it. -/
theorem afterHazard_jumps_of_not_fired (s : Player) (plats : List Platform)
    (h : hitFired s plats = false) :
    (afterHazard s plats).jumps = s.jumps := by
  unfold afterHazard
  unfold hitFired at h
  by_cases hc : (decide ((tickInvul (integrate s)).invul = 0) &&
      plats.any (fun p => hazardOverlap (tickInvul (integrate s)) p)) = true
  · have hr : (tickInvul (integrate s)).hit_recently = true := by
      cases hrec : (tickInvul (integrate s)).hit_recently
      · rw [hc, hrec] at h
        simp at h
      · rfl
    rw [hazardPhase_latched _ _ hc hr]
    exact (tickInvul_proj (integrate s)).2.2.2.1
  · rw [hazardPhase_clear _ _ (by simpa using hc)]
    exact (tickInvul_proj (integrate s)).2.2.2.1

/-- C5 (amended): the two-stage jump machine behaves as claimed — count 0
gives the strong impulse `vy = -15`, advances to 1 and clears `initial`;
count 1 gives the weaker `vy = -12` and advances to 2; count 2 is a complete
no-op — and the count never exceeds 2 across jumps and updates.  However the
counter returns to 0 not only through a successful landing: the hit-respawn
of `Player.hit` (hazard contact, or a fall with lives remaining) also resets
it to 0, which refutes the claim's "returns to 0 only via a successful
landing" (see the counterexample); the amended reset condition is "landing or
hit". -/
theorem c5_jump_machine_amended (s : Player) (plats : List Platform) :
    (s.jumps = 0 → (s.jump).vy = -JUMP ∧ (s.jump).jumps = 1 ∧
      (s.jump).initial = false) ∧
    (s.jumps = 1 → (s.jump).vy = -DJUMP ∧ (s.jump).jumps = 2 ∧
      (s.jump).initial = s.initial) ∧
    (2 ≤ s.jumps → s.jump = s) ∧
    (s.jumps ≤ 2 → (s.jump).jumps ≤ 2 ∧ (Player.update s plats).jumps ≤ 2) ∧
    ((Player.update s plats).jumps = 0 → s.jumps ≠ 0 →
      landed s plats = true ∨ hitFired s plats = true) := by
  refine ⟨?_, ?_, ?_, ?_, ?_⟩
  · intro h
    simp [Player.jump, h]
  · intro h
    simp [Player.jump, h]
  · intro h
    unfold Player.jump
    rw [if_neg (by omega), if_neg (by omega)]
  · intro h
    constructor
    · unfold Player.jump
      split
      · simp
      · split
        · simp
        · exact h
    · rcases update_jumps_cases s plats with hj | hj <;> omega
  · intro hz hne
    by_cases hl : landed s plats = true
    · exact Or.inl hl
    · by_cases hf : hitFired s plats = true
      · exact Or.inr hf
      · exfalso
        have hlp := landPhase_not_landed s plats (by simpa using hl)
        have hjj : (Player.update s plats).jumps = s.jumps := by
          rw [update_eq_phases, (clampX_proj _).2.2.1, hlp]
          exact afterHazard_jumps_of_not_fired s plats (by simpa using hf)
        exact hne (by rw [← hjj, hz])

/-- C5 (counterexample): a player with both jumps spent who touches a hazard:
no landing occurs during the frame, yet the jump counter returns to 0 — the
hit respawn, not a successful landing, reset it. -/
theorem c5_counterexample :
    pJump2.jumps = 2 ∧ landed pJump2 [hazAll] = false ∧
    (Player.update pJump2 [hazAll]).jumps = 0 := by
  norm_num [landed, afterHazard, Player.update, Player.hit, integrate,
    gravAccel, newVy, tickInvul, hazardPhase, hazardOverlap, landPhase,
    landCond, clampX, clampLow, clampHigh, pJump2, hazAll, GRAV, EASYGRAV,
    WIDTH, List.find?, List.any]

/-- C5 (witness): the amended theorem applied at jump count 1 (double-jump
impulse) and to a frame whose counter reset came from a hit. -/
theorem c5_witness :
    pJump1.jumps = 1 ∧ (pJump1.jump).vy = -DJUMP ∧ (pJump1.jump).jumps = 2 ∧
    pJump2.jumps ≤ 2 ∧ (Player.update pJump2 [hazAll]).jumps ≤ 2 ∧
    (landed pJump2 [hazAll] = true ∨ hitFired pJump2 [hazAll] = true) := by
  have h1 := (c5_jump_machine_amended pJump1 [hazAll]).2.1 rfl
  have h2 := ((c5_jump_machine_amended pJump2 [hazAll]).2.2.2.1
    (by norm_num [pJump2])).2
  have h3 := (c5_jump_machine_amended pJump2 [hazAll]).2.2.2.2
    (by norm_num [Player.update, Player.hit, integrate, gravAccel, newVy,
      tickInvul, hazardPhase, hazardOverlap, landPhase, landCond, clampX,
      clampLow, clampHigh, pJump2, hazAll, GRAV, EASYGRAV, WIDTH, List.find?,
      List.any])
    (by norm_num [pJump2])
  exact ⟨rfl, h1.1, h1.2.1, by norm_num [pJump2], h2, h3⟩

/-- C6: the landing logic of `Player.update` — (1) while still rising
(`vy < 0` at the landing check) the landing phase is skipped entirely;
(2) the platform the scan finds is never hazardous, and at the check the
player's bottom edge lies within its vertical span while the boxes overlap
horizontally; (3) when the check fires (alive, falling, a platform found)
the player's `y` becomes exactly `platform.y - player.h`, the vertical
velocity is zeroed, the jump counter resets to 0 and the `initial` flag is
cleared. -/
theorem c6_landing (s : Player) (plats : List Platform) :
    ((afterHazard s plats).vy < 0 →
      Player.update s plats = clampX (afterHazard s plats)) ∧
    (∀ p, plats.find? (landCond (afterHazard s plats)) = some p →
      p.hazard = false ∧
      p.y ≤ (afterHazard s plats).y + (afterHazard s plats).h ∧
      (afterHazard s plats).y + (afterHazard s plats).h ≤ p.y + p.h ∧
      p.x < (afterHazard s plats).x + (afterHazard s plats).w ∧
      (afterHazard s plats).x < p.x + p.w) ∧
    ((afterHazard s plats).alive = true → 0 ≤ (afterHazard s plats).vy →
      ∀ p, plats.find? (landCond (afterHazard s plats)) = some p →
        (Player.update s plats).y = p.y - s.h ∧
        (Player.update s plats).vy = 0 ∧
        (Player.update s plats).jumps = 0 ∧
        (Player.update s plats).initial = false) := by
  refine ⟨?_, ?_, ?_⟩
  · intro hvy
    rw [update_eq_phases]
    have h : landPhase (afterHazard s plats) plats = afterHazard s plats := by
      unfold landPhase
      rw [if_neg]
      rintro ⟨_, hv⟩
      linarith
    rw [h]
  · intro p hp
    have hcond := List.find?_some hp
    unfold landCond at hcond
    simp only [Bool.and_eq_true, decide_eq_true_eq, Bool.not_eq_true',
      ge_iff_le, gt_iff_lt] at hcond
    exact ⟨hcond.1.1.1.1, hcond.1.1.1.2, hcond.1.1.2, hcond.1.2, hcond.2⟩
  · intro ha hv p hp
    have hland : (landPhase (afterHazard s plats) plats).y =
          p.y - (afterHazard s plats).h ∧
        (landPhase (afterHazard s plats) plats).vy = 0 ∧
        (landPhase (afterHazard s plats) plats).jumps = 0 ∧
        (landPhase (afterHazard s plats) plats).initial = false := by
      unfold landPhase
      rw [if_pos ⟨ha, hv⟩, hp]
      exact ⟨rfl, rfl, rfl, rfl⟩
    rw [update_eq_phases]
    refine ⟨?_, ?_, ?_, ?_⟩
    · rw [(clampX_proj _).1, hland.1, afterHazard_h]
    · rw [(clampX_proj _).2.1, hland.2.1]
    · rw [(clampX_proj _).2.2.1, hland.2.2.1]
    · rw [(clampX_proj _).2.2.2.1, hland.2.2.2]

/-- C6 (witness): the landing theorem applied to a player falling onto a safe
platform: the frame snaps the bottom edge to the platform top (y = 450 for a
platform top at 500 and height 50), zeroes `vy`, resets the jump counter and
clears `initial`. -/
theorem c6_witness :
    (afterHazard pLand [pSafe]).alive = true ∧
    0 ≤ (afterHazard pLand [pSafe]).vy ∧
    List.find? (landCond (afterHazard pLand [pSafe])) [pSafe] = some pSafe ∧
    (Player.update pLand [pSafe]).y = pSafe.y - pLand.h ∧
    (Player.update pLand [pSafe]).vy = 0 ∧
    (Player.update pLand [pSafe]).jumps = 0 ∧
    (Player.update pLand [pSafe]).initial = false := by
  have h1 : (afterHazard pLand [pSafe]).alive = true := by
    norm_num [afterHazard, hazardPhase, hazardOverlap, tickInvul, integrate,
      gravAccel, newVy, pLand, pSafe, GRAV, EASYGRAV, List.any]
  have h2 : 0 ≤ (afterHazard pLand [pSafe]).vy := by
    norm_num [afterHazard, hazardPhase, hazardOverlap, tickInvul, integrate,
      gravAccel, newVy, pLand, pSafe, GRAV, EASYGRAV, List.any]
  have h3 : List.find? (landCond (afterHazard pLand [pSafe])) [pSafe] =
      some pSafe := by
    norm_num [afterHazard, hazardPhase, hazardOverlap, tickInvul, integrate,
      gravAccel, newVy, landCond, pLand, pSafe, GRAV, EASYGRAV, List.any,
      List.find?]
  have h := (c6_landing pLand [pSafe]).2.2 h1 h2 pSafe h3
  exact ⟨h1, h2, h3, h.1, h.2.1, h.2.2.1, h.2.2.2⟩

/-- The landing test reads only the player's position and box size. -/
theorem landCond_congr (s t : Player) (hx : s.x = t.x) (hy : s.y = t.y)
    (hw : s.w = t.w) (hh : s.h = t.h) : landCond s = landCond t := by
  funext q
  unfold landCond
  rw [hx, hy, hw, hh]

/-- Projections of the pre-hazard pipeline (integration plus invulnerability
decrement). -/
theorem si_proj (s : Player) :
    (tickInvul (integrate s)).x = s.x ∧
    (tickInvul (integrate s)).y = s.y + newVy s ∧
    (tickInvul (integrate s)).vy = newVy s ∧
    (tickInvul (integrate s)).jumps = s.jumps ∧
    (tickInvul (integrate s)).initial = s.initial ∧
    (tickInvul (integrate s)).alive = s.alive ∧
    (tickInvul (integrate s)).h = s.h ∧
    (tickInvul (integrate s)).w = s.w := by
  have h := tickInvul_proj (integrate s)
  exact ⟨h.1, h.2.1, h.2.2.1, h.2.2.2.1, h.2.2.2.2.1, h.2.2.2.2.2.2.2.1,
    h.2.2.2.2.2.2.2.2.1, h.2.2.2.2.2.2.2.2.2.1⟩

/-- A resting player (zero velocity, past the first landing) accumulates
exactly one full-gravity increment. -/
theorem newVy_at_rest (s : Player) (hvy : s.vy = 0) (hi : s.initial = false) :
    newVy s = GRAV := by
  unfold newVy gravAccel
  rw [hvy, if_neg (lt_irrefl (0 : ℚ))]
  rw [if_neg (by rw [hi]; rintro ⟨h1, _⟩; exact Bool.false_ne_true h1)]
  rw [zero_add]

/-- One frame preserves the resting state: the player sinks by one gravity
increment, is caught by the landing scan, and is snapped back onto the
platform top with zero velocity. -/
theorem resting_step (p : Platform) (plats : List Platform) (s : Player)
    (hhaz : ∀ q ∈ plats, q.hazard = false)
    (hr : RestingOn p plats s) :
    RestingOn p plats (Player.update s plats) ∧
    (Player.update s plats).h = s.h ∧ (Player.update s plats).x = s.x := by
  obtain ⟨hy, hvy, hj, hi, ha, hx0, hxw, hfind⟩ := hr
  have hsp := si_proj s
  have hnv := newVy_at_rest s hvy hi
  have hcol : (decide ((tickInvul (integrate s)).invul = 0) &&
      plats.any (fun q => hazardOverlap (tickInvul (integrate s)) q)) = false := by
    have hany : plats.any (fun q => hazardOverlap (tickInvul (integrate s)) q)
        = false := by
      rw [List.any_eq_false]
      intro q hq
      unfold hazardOverlap
      rw [hhaz q hq]
      simp
    rw [hany, Bool.and_false]
  have hAH : hazardPhase (tickInvul (integrate s)) plats =
      { tickInvul (integrate s) with hit_recently := false } :=
    hazardPhase_clear _ _ hcol
  have hAx : (afterHazard s plats).x = s.x := by
    unfold afterHazard
    rw [hAH]
    exact hsp.1
  have hAy : (afterHazard s plats).y = s.y + newVy s := by
    unfold afterHazard
    rw [hAH]
    exact hsp.2.1
  have hAvy : (afterHazard s plats).vy = newVy s := by
    unfold afterHazard
    rw [hAH]
    exact hsp.2.2.1
  have hAalive : (afterHazard s plats).alive = s.alive := by
    unfold afterHazard
    rw [hAH]
    exact hsp.2.2.2.2.2.1
  have hAw : (afterHazard s plats).w = s.w := by
    unfold afterHazard
    rw [hAH]
    exact hsp.2.2.2.2.2.2.2
  have hlc : landCond (afterHazard s plats) =
      landCond (tickInvul (integrate s)) := by
    apply landCond_congr
    · exact hAx.trans hsp.1.symm
    · exact hAy.trans hsp.2.1.symm
    · exact hAw.trans hsp.2.2.2.2.2.2.2.symm
    · exact (afterHazard_h s plats).trans hsp.2.2.2.2.2.2.1.symm
  have hAfind : plats.find? (landCond (afterHazard s plats)) = some p := by
    rw [hlc]
    exact hfind
  have hland : (landPhase (afterHazard s plats) plats).y =
        p.y - (afterHazard s plats).h ∧
      (landPhase (afterHazard s plats) plats).vy = 0 ∧
      (landPhase (afterHazard s plats) plats).jumps = 0 ∧
      (landPhase (afterHazard s plats) plats).initial = false := by
    unfold landPhase
    rw [if_pos ⟨by rw [hAalive, ha], by rw [hAvy, hnv]; norm_num [GRAV]⟩, hAfind]
    exact ⟨rfl, rfl, rfl, rfl⟩
  have hLproj := landPhase_proj (afterHazard s plats) plats
  have hLx : (landPhase (afterHazard s plats) plats).x = s.x := by
    rw [hLproj.1, hAx]
  have hLw : (landPhase (afterHazard s plats) plats).w = s.w := by
    rw [hLproj.2.2.2.2.2.2.1, hAw]
  have hclamp : clampX (landPhase (afterHazard s plats) plats) =
      landPhase (afterHazard s plats) plats := by
    have h1 : clampLow (landPhase (afterHazard s plats) plats) =
        landPhase (afterHazard s plats) plats := by
      unfold clampLow
      rw [if_neg]
      rw [hLx]
      exact not_lt.mpr hx0
    unfold clampX
    rw [h1]
    unfold clampHigh
    rw [if_neg]
    rw [hLx, hLw]
    exact not_lt.mpr hxw
  have hupd : Player.update s plats = landPhase (afterHazard s plats) plats := by
    rw [update_eq_phases, hclamp]
  have hUy : (Player.update s plats).y = p.y - s.h := by
    rw [hupd, hland.1, afterHazard_h]
  have hUvy : (Player.update s plats).vy = 0 := by rw [hupd, hland.2.1]
  have hUj : (Player.update s plats).jumps = 0 := by rw [hupd, hland.2.2.1]
  have hUi : (Player.update s plats).initial = false := by
    rw [hupd, hland.2.2.2]
  have hUa : (Player.update s plats).alive = true := by
    rw [hupd, hLproj.2.2.2.2.1, hAalive, ha]
  have hUx : (Player.update s plats).x = s.x := by rw [hupd, hLx]
  have hUw : (Player.update s plats).w = s.w := by rw [hupd, hLw]
  have hUh : (Player.update s plats).h = s.h := by
    rw [hupd, hLproj.2.2.2.2.2.1, afterHazard_h]
  have hsp2 := si_proj (Player.update s plats)
  have hnv2 : newVy (Player.update s plats) = GRAV :=
    newVy_at_rest _ hUvy hUi
  have hlc2 : landCond (tickInvul (integrate (Player.update s plats))) =
      landCond (tickInvul (integrate s)) := by
    apply landCond_congr
    · rw [hsp2.1, hsp.1, hUx]
    · rw [hsp2.2.1, hsp.2.1, hUy, hnv2, hnv, hy]
    · rw [hsp2.2.2.2.2.2.2.2, hsp.2.2.2.2.2.2.2, hUw]
    · rw [hsp2.2.2.2.2.2.2.1, hsp.2.2.2.2.2.2.1, hUh]
  refine ⟨⟨?_, hUvy, hUj, hUi, hUa, ?_, ?_, ?_⟩, hUh, hUx⟩
  · rw [hUy, hUh]
  · rw [hUx]
    exact hx0
  · rw [hUx, hUw]
    exact hxw
  · rw [hlc2]
    exact hfind

/-- C7: resting on a safe platform is a fixed point of `Player.update` — for
a player at rest on `p` (bottom edge on the platform top, `vy = 0`, already
landed once, alive, inside the screen, with `p` the platform found by the
landing scan) in a hazard-free platform list, every number of further frames
without jump or horizontal input leaves `y = p.y - h` and `vy = 0`. -/
theorem c7_resting_idempotent (p : Platform) (plats : List Platform)
    (s : Player) (hhaz : ∀ q ∈ plats, q.hazard = false)
    (hr : RestingOn p plats s) :
    ∀ n : Nat, ((fun t => Player.update t plats)^[n] s).y = p.y - s.h ∧
      ((fun t => Player.update t plats)^[n] s).vy = 0 := by
  have key : ∀ n : Nat,
      RestingOn p plats ((fun t => Player.update t plats)^[n] s) ∧
      ((fun t => Player.update t plats)^[n] s).h = s.h := by
    intro n
    induction n with
    | zero => exact ⟨hr, rfl⟩
    | succ k ih =>
      rw [Function.iterate_succ_apply']
      have hs := resting_step p plats _ hhaz ih.1
      exact ⟨hs.1, hs.2.1.trans ih.2⟩
  intro n
  obtain ⟨⟨h1, h2, _⟩, hh⟩ := key n
  exact ⟨by rw [h1, hh], h2⟩

/-- C7 (witness): the fixed-point theorem applied to a concrete player at
rest on a safe platform, iterated for 3 frames. -/
theorem c7_witness :
    RestingOn pSafe [pSafe] pRest ∧
    (∀ q ∈ [pSafe], q.hazard = false) ∧
    (((fun t => Player.update t [pSafe])^[3]) pRest).y = pSafe.y - pRest.h ∧
    (((fun t => Player.update t [pSafe])^[3]) pRest).vy = 0 := by
  have hhaz : ∀ q ∈ [pSafe], q.hazard = false := by
    intro q hq
    simp only [List.mem_singleton] at hq
    rw [hq]
    rfl
  have hr : RestingOn pSafe [pSafe] pRest := by
    refine ⟨?_, ?_, ?_, ?_, ?_, ?_, ?_, ?_⟩ <;>
      norm_num [pRest, pSafe, WIDTH, tickInvul, integrate, newVy, gravAccel,
        GRAV, EASYGRAV, landCond, List.find?]
  have h := c7_resting_idempotent pSafe [pSafe] pRest hhaz hr 3
  exact ⟨hr, hhaz, h.1, h.2⟩

/-- Evaluation of the reader on a fully well-formed scoreboard line. -/
theorem parse_good_line :
    parseScoreLine "2. DEF 5 4.20" = Except.ok (some ("DEF", 5, (21 : ℚ)/5)) := by
  have hsplit : lineParts "2. DEF 5 4.20" = ["DEF", "5", "4.20"] := by decide
  have hint : pyParseInt "5" = some 5 := by decide
  have hfl : pyParseFloat "4.20" = some ((21 : ℚ)/5) := by
    simp +decide [pyParseFloat, pyParseFloatBody, splitDotGo, parseDigits,
      parseDigitsOpt, digitsVal]
    norm_num
  unfold parseScoreLine
  simp only [hsplit, hint, hfl]

/-- C4 (amended): the leaderboard readers never raise — every internal
exception is caught (`check_top10` on a missing file returns true, and both
functions are total on any file content) — and a line with the wrong field
count is skipped individually with parsing continuing; but a 3-field line
whose number fails to parse raises inside the loop: in `save_score` the
well-formed lines before it are kept and everything after it is abandoned
(rather than each malformed line being skipped individually), and in
`check_top10` a malformed time field short-circuits the whole check to true.
(`check_top10` parses only the time field, so a malformed score aborts only
`save_score`.)  The original claim's "every well-formed line still
participates" fails on any file with a well-formed line after a
malformed-number line (see the counterexample). -/
theorem c4_reader_amended :
    (∀ t : ℚ, check_top10 none t = true) ∧
    (∀ l ls, parseScoreLine l = Except.ok none →
      readScores (l :: ls) = readScores ls) ∧
    (∀ l ls e, parseScoreLine l = Except.ok (some e) →
      readScores (l :: ls) = e :: readScores ls) ∧
    (∀ l ls, parseScoreLine l = Except.error () →
      readScores (l :: ls) = []) ∧
    (∀ l ls t, parseTimeLine l = Except.error () →
      check_top10 (some (l :: ls)) t = true) := by
  refine ⟨fun t => rfl, ?_, ?_, ?_, ?_⟩
  · intro l ls h
    show (match parseScoreLine l with
      | Except.error _ => []
      | Except.ok none => readScores ls
      | Except.ok (some e) => e :: readScores ls) = readScores ls
    rw [h]
  · intro l ls e h
    show (match parseScoreLine l with
      | Except.error _ => []
      | Except.ok none => readScores ls
      | Except.ok (some e) => e :: readScores ls) = e :: readScores ls
    rw [h]
  · intro l ls h
    show (match parseScoreLine l with
      | Except.error _ => []
      | Except.ok none => readScores ls
      | Except.ok (some e) => e :: readScores ls) = []
    rw [h]
  · intro l ls t h
    have hr : readTimesE (l :: ls) = Except.error () := by
      show (match parseTimeLine l with
        | Except.error _ => Except.error ()
        | Except.ok none => readTimesE ls
        | Except.ok (some q) => (readTimesE ls).map (fun ts => q :: ts)) =
        Except.error ()
      rw [h]
    show check_top10_parsed (readTimesE (l :: ls)) t = true
    rw [hr]
    rfl

/-- C4 (counterexample): the line `"2. DEF 5 4.20"` is well-formed (it parses
to an entry on its own), yet when it follows the malformed-score line
`"1. ABC xx 1.00"` the reader of `save_score` returns the empty list — the
well-formed line did not participate, refuting "each malformed line is
skipped individually while every well-formed line still participates". -/
theorem c4_counterexample :
    parseScoreLine "2. DEF 5 4.20" = Except.ok (some ("DEF", 5, (21 : ℚ)/5)) ∧
    readScores ["1. ABC xx 1.00", "2. DEF 5 4.20"] = [] := by
  refine ⟨parse_good_line, ?_⟩
  have herr : parseScoreLine "1. ABC xx 1.00" = Except.error () := by decide
  show (match parseScoreLine "1. ABC xx 1.00" with
    | Except.error _ => []
    | Except.ok none => readScores ["2. DEF 5 4.20"]
    | Except.ok (some e) => e :: readScores ["2. DEF 5 4.20"]) = []
  rw [herr]

/-- C4 (witness): the amended theorem applied to a two-field line (skipped
individually), a malformed-number line (aborting the read), and a malformed
time field (short-circuiting `check_top10` to true). -/
theorem c4_witness :
    readScores ["x y", "2. DEF 5 4.20"] = [("DEF", 5, (21 : ℚ)/5)] ∧
    readScores ["1. ABC 5 zz", "2. DEF 5 4.20"] = [] ∧
    check_top10 (some ["1. ABC 5 zz", "2. DEF 5 4.20"]) 100 = true := by
  have h1 : parseScoreLine "x y" = Except.ok none := by decide
  have h3 : parseScoreLine "1. ABC 5 zz" = Except.error () := by decide
  have h4 : parseTimeLine "1. ABC 5 zz" = Except.error () := by decide
  refine ⟨?_, ?_, ?_⟩
  · rw [c4_reader_amended.2.1 "x y" _ h1,
      c4_reader_amended.2.2.1 "2. DEF 5 4.20" _ _ parse_good_line]
    rfl
  · exact c4_reader_amended.2.2.2.1 _ _ h3
  · exact c4_reader_amended.2.2.2.2 _ _ 100 h4

/-- Membership in a stable insertion: the inserted entry or an original one. -/
theorem mem_insertEntry (e x : Entry) (l : List Entry)
    (h : x ∈ insertEntry e l) : x = e ∨ x ∈ l := by
  induction l with
  | nil =>
    left
    simpa [insertEntry] using h
  | cons a t ih =>
    unfold insertEntry at h
    by_cases hc : a.2.2 ≤ e.2.2
    · rw [if_pos hc] at h
      rcases List.mem_cons.mp h with h1 | h2
      · right
        exact List.mem_cons.mpr (Or.inl h1)
      · rcases ih h2 with h3 | h4
        · left; exact h3
        · right; exact List.mem_cons.mpr (Or.inr h4)
    · rw [if_neg hc] at h
      rcases List.mem_cons.mp h with h1 | h2
      · left; exact h1
      · right; exact h2

/-- Stable insertion preserves the sortedness by time. -/
theorem sorted_insertEntry (e : Entry) (l : List Entry)
    (h : List.Pairwise (fun a b : Entry => a.2.2 ≤ b.2.2) l) :
    List.Pairwise (fun a b : Entry => a.2.2 ≤ b.2.2) (insertEntry e l) := by
  induction l with
  | nil => simp [insertEntry]
  | cons a t ih =>
    rcases List.pairwise_cons.mp h with ⟨ha, ht⟩
    unfold insertEntry
    by_cases hc : a.2.2 ≤ e.2.2
    · rw [if_pos hc]
      refine List.pairwise_cons.mpr ⟨?_, ih ht⟩
      intro x hx
      rcases mem_insertEntry e x t hx with h1 | h2
      · rw [h1]; exact hc
      · exact ha x h2
    · rw [if_neg hc]
      refine List.pairwise_cons.mpr ⟨?_, h⟩
      intro x hx
      rcases List.mem_cons.mp hx with h1 | h2
      · rw [h1]; exact le_of_not_le hc
      · exact le_trans (le_of_not_le hc) (ha x h2)

/-- The insertion sort of `save_score` produces a list sorted by time. -/
theorem sorted_sortEntries (l : List Entry) :
    List.Pairwise (fun a b : Entry => a.2.2 ≤ b.2.2) (sortEntries l) := by
  unfold sortEntries
  suffices h : ∀ acc, List.Pairwise (fun a b : Entry => a.2.2 ≤ b.2.2) acc →
      List.Pairwise (fun a b : Entry => a.2.2 ≤ b.2.2)
        (List.foldl (fun acc e => insertEntry e acc) acc l) by
    exact h [] List.Pairwise.nil
  induction l with
  | nil =>
    intro acc ha
    simpa using ha
  | cons e t ih =>
    intro acc ha
    simp only [List.foldl_cons]
    exact ih _ (sorted_insertEntry e acc ha)

/-- Rounding to two decimals is monotone, so the printed time fields inherit
the ordering of the underlying times. -/
theorem round2_mono {a b : ℚ} (h : a ≤ b) : round2 a ≤ round2 b := by
  unfold round2 round2int
  have h1 : (⌊a * 100 + 1/2⌋ : ℤ) ≤ ⌊b * 100 + 1/2⌋ :=
    Int.floor_le_floor (by linarith)
  have h2 : ((⌊a * 100 + 1/2⌋ : ℤ) : ℚ) ≤ ((⌊b * 100 + 1/2⌋ : ℤ) : ℚ) := by
    exact_mod_cast h1
  linarith

/-- C8: after any `save_score`, the written file has at most 10 lines (one
per kept entry), and the entries — hence the two-decimal time fields printed
on the lines — are sorted non-decreasingly by time from top to bottom. -/
theorem c8_leaderboard_invariant (file : Option (List String))
    (initials : String) (sc : Int) (ttime : ℚ) :
    (save_score_lines file initials sc ttime).length ≤ 10 ∧
    (save_score_lines file initials sc ttime).length =
      (save_score_entries file initials sc ttime).length ∧
    List.Pairwise (fun a b : Entry => a.2.2 ≤ b.2.2)
      (save_score_entries file initials sc ttime) ∧
    List.Pairwise (fun a b : Entry => round2 a.2.2 ≤ round2 b.2.2)
      (save_score_entries file initials sc ttime) := by
  have hs : List.Pairwise (fun a b : Entry => a.2.2 ≤ b.2.2)
      (save_score_entries file initials sc ttime) := by
    unfold save_score_entries
    exact List.Pairwise.sublist (List.take_sublist _ _) (sorted_sortEntries _)
  have hlen : (save_score_lines file initials sc ttime).length =
      (save_score_entries file initials sc ttime).length := by
    unfold save_score_lines
    rw [List.length_map, List.enum_length]
  refine ⟨?_, hlen, hs, ?_⟩
  · rw [hlen]
    unfold save_score_entries
    simp only [List.length_take]
    omega
  · exact hs.imp (fun hab => round2_mono hab)

/-- C9: with the scoreboard file absent, `check_top10` returns true for every
time value, and the first save with initials "ABC", score 5 and time 12.34
writes the single line "1. ABC 5 12.34". -/
theorem c9_missing_file :
    (∀ t : ℚ, check_top10 none t = true) ∧
    save_score_lines none "ABC" 5 ((1234 : ℚ)/100) = ["1. ABC 5 12.34"] := by
  refine ⟨fun t => rfl, ?_⟩
  have he : save_score_entries none "ABC" 5 ((1234 : ℚ)/100) =
      [("ABC", 5, (1234 : ℚ)/100)] := by
    unfold save_score_entries sortEntries
    simp [insertEntry]
  have hr2 : round2int ((1234 : ℚ)/100) = 1234 := by
    unfold round2int
    rw [Int.floor_eq_iff]
    constructor <;> norm_num
  have hfmt : formatLine 1 ("ABC", 5, (1234 : ℚ)/100) = "1. ABC 5 12.34" := by
    unfold formatLine fmt2
    rw [hr2]
    decide
  unfold save_score_lines
  rw [he]
  simp [List.enum, List.enumFrom, hfmt]
